import Mathlib

/-!
Verification of the equipment-tracker extraction pipeline.

This file gives a shallow embedding of the backend of the equipment-tracker
repository (src/backend/server.js, src/backend/odinScraper.js,
src/backend/googleNewsHelper.js) and proves or refutes the behavioural
claims about it.  JavaScript objects used as string-keyed maps are embedded
as insertion-ordered association lists with in-place update (the semantics
of `obj[k] = v` followed by `Object.keys` iteration); JS `Set` is embedded
as first-seen-order duplicate-free insertion; truthiness of a string is
emptiness testing; exceptions caught by the code are embedded as sum-typed
outcomes.
-/

/-- Assignment `m[k] = v` on a JavaScript object viewed as an
insertion-ordered association list: an existing key keeps its position and
gets the new value, a fresh key is appended. -/
def jsObjSet {α : Type} (m : List (String × α)) (k : String) (v : α) :
    List (String × α) :=
  if m.any (fun p => p.1 == k) then
    m.map (fun p => if p.1 == k then (k, v) else p)
  else
    m ++ [(k, v)]

/-- One tab's extracted content, as produced by `extractTabsContent` in
odinScraper.js: joined text, raw text, HTML tables (row-major, cells
in document order) and label/value grid rows. -/
structure TabContent where
  text : String
  rawText : String
  tables : List (List (List String))
  gridRows : List (String × String)
deriving DecidableEq

/-- One table row's contribution in `extractSpecifications`:
`if (row.length >= 2) specs[row[0]] = row[1]`. -/
def rowStep (m : List (String × String)) (row : List String) :
    List (String × String) :=
  match row with
  | c0 :: c1 :: _ => jsObjSet m c0 c1
  | _ => m

/-- The key a table row contributes to the specifications map, when it has
at least two cells. -/
def firstCellKey : List String → Option String
  | c0 :: _ :: _ => some c0
  | _ => none

/-- Function `extractSpecifications` from odinScraper.js: fold every tab's
`gridRows` and then its `tables` into one map, later writes overwriting
earlier values for the same key. -/
def extractSpecifications (tabs : List (String × TabContent)) :
    List (String × String) :=
  tabs.foldl (fun specs t =>
    let withRows := t.2.gridRows.foldl (fun m r => jsObjSet m r.1 r.2) specs
    t.2.tables.foldl (fun m table => table.foldl rowStep m) withRows) []

/-- One card's parsed equipment data, as produced per card by
`parseEquipmentData` in odinScraper.js and consumed by the merge step of
`searchODIN`. -/
structure ParsedResult where
  title : String
  category : String
  preview : String
  notes : String
  imageUrl : String
  specifications : List (String × String)
  operators : List String
  variants : List String
deriving DecidableEq

/-- A card result with every field empty; stands for the value JS would
build from an all-missing card. -/
def emptyParsed : ParsedResult := ⟨"", "", "", "", "", [], [], []⟩

/-- JS `Set.add` preserving first-seen insertion order. -/
def setAdd (l : List String) (x : String) : List String :=
  if x ∈ l then l else l ++ [x]

/-- Expression `results.map(r => r.imageUrl).filter(Boolean)` from the merge step of
`searchODIN` (odinScraper.js): the per-card image URLs with empty (falsy)
entries removed — nothing else. -/
def mergedImages (results : List ParsedResult) : List String :=
  (results.map (fun r => r.imageUrl)).filter (fun s => !(s == ""))

/-- The operators merge of `searchODIN`: every card's operators added to
one JS `Set`, read back in insertion order. -/
def mergedOperators (results : List ParsedResult) : List String :=
  results.foldl (fun acc r => r.operators.foldl setAdd acc) []

/-- The variants merge of `searchODIN`, same `Set` mechanism. -/
def mergedVariants (results : List ParsedResult) : List String :=
  results.foldl (fun acc r => r.variants.foldl setAdd acc) []

/-- The specifications merge of `searchODIN`:
`Object.assign(merged.specifications, result.specifications)` over all
results. -/
def mergedSpecifications (results : List ParsedResult) :
    List (String × String) :=
  results.foldl
    (fun acc r => r.specifications.foldl (fun m p => jsObjSet m p.1 p.2) acc) []

/-- The merged equipment record built by `searchODIN` in odinScraper.js
from all processed cards (the first card is primary). -/
structure MergedEquipment where
  name : String
  category : String
  notes : String
  images : List String
  specifications : List (String × String)
  operators : List String
  variants : List String
deriving DecidableEq

/-- The merge step of `searchODIN` (odinScraper.js, success path). -/
def mergeEquipment (results : List ParsedResult) : MergedEquipment :=
  { name := (results.headD emptyParsed).title
    category := (results.headD emptyParsed).category
    notes := (results.headD emptyParsed).notes
    images := mergedImages results
    specifications := mergedSpecifications results
    operators := mergedOperators results
    variants := mergedVariants results }

/-- The fixed reference country list of `extractOperators`
(odinScraper.js). -/
def countries : List String :=
  ["United States", "USA", "US", "India", "Russia", "China", "UK",
   "United Kingdom", "France", "Germany", "Israel", "Japan", "South Korea",
   "Pakistan", "Iran", "Saudi Arabia", "UAE", "Turkey", "Australia",
   "Canada", "Brazil", "Egypt", "Italy", "Spain", "Poland", "Ukraine",
   "North Korea", "Syria", "Iraq"]

/-- JS regex word character class (the set the `\b` anchor tests). -/
def isWordChar (c : Char) : Bool :=
  c.isAlphanum || c == '_'

/-- Case-insensitive literal match of a pattern against the front of a
text (the `i` flag of the country regexes). -/
def ciMatch : List Char → List Char → Bool
  | [], _ => true
  | _ :: _, [] => false
  | p :: ps, t :: ts => (p.toLower == t.toLower) && ciMatch ps ts

/-- Left `\b` anchor: satisfied at the start of the text or after a
non-word character (all country patterns begin with a word character). -/
def boundaryBefore : Option Char → Bool
  | none => true
  | some c => !isWordChar c

/-- Right `\b` anchor: satisfied at the end of the text or before a
non-word character (all country patterns end with a word character). -/
def boundaryAfterOk : List Char → Bool
  | [] => true
  | c :: _ => !isWordChar c

/-- Whether the pattern matches as a whole word exactly at the current
position, the previous character being `prev`. -/
def matchesHere (pat text : List Char) (prev : Option Char) : Bool :=
  boundaryBefore prev && ciMatch pat text && boundaryAfterOk (text.drop pat.length)

/-- Scan of the text for a whole-word, case-insensitive occurrence of the
pattern, tracking the previous character. -/
def occursAux (pat : List Char) : Option Char → List Char → Bool
  | prev, [] => matchesHere pat [] prev
  | prev, c :: cs => matchesHere pat (c :: cs) prev || occursAux pat (some c) cs

/-- Test `new RegExp('\\b' + country + '\\b', 'gi').test(allText)` from
`extractOperators`: the country name occurs in the text as a whole word,
case-insensitively. -/
def occursAsWord (text pat : String) : Bool :=
  occursAux pat.data none text.data

/-- Function `extractOperators` from odinScraper.js: the countries whose names
word-match the serialized extraction text, in reference-list order; the
sentinel `'Unknown'` when none matches. -/
def extractOperators (allText : String) : List String :=
  let ops := countries.filter (fun c => occursAsWord allText c)
  if ops.isEmpty then ["Unknown"] else ops

/-- A news article as built by `fetchGoogleNewsRSS` in googleNewsHelper.js;
fields the feed did not provide (`region`, `url`) are the empty string,
standing for JS `undefined`. -/
structure NewsArticle where
  title : String
  link : String
  source : String
  publishedAt : String
  date : String
  description : String
  excerpt : String
  timestamp : Int
  region : String
  url : String
deriving DecidableEq

/-- Deduplication key `article.link || article.title` used by the
`/api/search` aggregation in server.js (an empty link is falsy in JS, so
the title is used instead). -/
def newsKey (a : NewsArticle) : String :=
  if a.link == "" then a.title else a.link

/-- Aggregation step
`Array.from(new Map(allNews.map(a => [a.link || a.title, a])).values())`
from server.js: keys keep first-insertion order, a later article with the
same key replaces the earlier one. -/
def dedupeNews (l : List NewsArticle) : List NewsArticle :=
  (l.foldl (fun m a => jsObjSet m (newsKey a) a) []).map Prod.snd

/-- Stable insertion of an article into a list sorted by timestamp
descending (an equal timestamp keeps the incoming article first, matching
a stable JS `sort`). -/
def insertDesc (a : NewsArticle) : List NewsArticle → List NewsArticle
  | [] => [a]
  | b :: bs => if b.timestamp ≤ a.timestamp then a :: b :: bs else b :: insertDesc a bs

/-- Stable sort by timestamp descending:
`uniqueNews.sort((a, b) => b.timestamp - a.timestamp)` in server.js. -/
def sortDesc : List NewsArticle → List NewsArticle
  | [] => []
  | a :: as => insertDesc a (sortDesc as)

/-- The per-article shape of the `news` field of the `/api/search`
response. -/
structure NewsOut where
  title : String
  source : String
  date : String
  url : String
  excerpt : String
  region : String
deriving DecidableEq

/-- The article projection `uniqueNews.slice(0, 20).map(article => ...)`
performed in both branches of the `/api/search` handler. -/
def toNewsOut (region : String) (a : NewsArticle) : NewsOut :=
  { title := a.title
    source := a.source
    date := a.date
    url := if a.link == "" then a.url else a.link
    excerpt := if a.excerpt == "" then a.description else a.excerpt
    region := if a.region == "" then region else a.region }

/-- The full news aggregate of one `/api/search` request: concatenate the
regional and global fetches, deduplicate by `link || title`, sort by
timestamp descending, cap at 20 and project. Both response branches embed
exactly this list. -/
def aggregatedNews (region : String) (regional globalNews : List NewsArticle) :
    List NewsOut :=
  ((sortDesc (dedupeNews (regional ++ globalNews))).take 20).map (toNewsOut region)

/-- The slice of `formatReportForFrontend`'s output (odinScraper.js) that
the `/api/search` success branch reads. -/
structure FrontendDataS where
  overviewName : String
  overviewType : String
  threatLevel : String
  primaryRole : String
  overviewImage : String
  specificationsTab : List (String × String)
  operationalStatus : String
  operators : List String
  variants : List String
  deploymentRegions : List String
  operationalRange : String
  targetTypes : List String
  guidanceSystem : String
  warheadType : String
  strengths : List String
  limitations : List String
  counterMeasures : List String
  intelligenceNotes : String
  lastUpdated : String
  images : List String
deriving DecidableEq

/-- The slice of `generateMilitaryReport`'s output that the `/api/search`
success branch reads. -/
structure MilitaryReportS where
  intelligenceNotes : String
  operationalStatus : String
  threatLevel : String
deriving DecidableEq

/-- The value `searchODIN` resolves with: never a thrown exception — every
internal error is caught and turned into a `success: false` record. -/
structure OdinResultS where
  success : Bool
  error : Option String
  frontendData : Option FrontendDataS
  militaryReport : Option MilitaryReportS
deriving DecidableEq

/-- What the browser part of a query run did: the session failed to launch
(or the scraper threw), or it produced a list of per-card results. -/
inductive ScrapeOutcome where
  | launchError (msg : String)
  | ok (results : List ParsedResult)
deriving DecidableEq

/-- Control flow of `searchODIN` (odinScraper.js): a thrown error is
caught and reported as `success: false` with the error message; an empty
result list yields `success: false` with `'No results found'`; otherwise
the merged report is built (`build` stands for the
`generateMilitaryReport` / `formatReportForFrontend` composition). -/
def searchODIN (build : List ParsedResult → MilitaryReportS × FrontendDataS) :
    ScrapeOutcome → OdinResultS
  | .launchError msg => ⟨false, some msg, none, none⟩
  | .ok [] => ⟨false, some "No results found", none, none⟩
  | .ok (r :: rs) =>
    let mrfd := build (r :: rs)
    ⟨true, none, some mrfd.2, some mrfd.1⟩

/-- The detail-extraction path failed entirely: session launch error, a
scraper exception, or zero cards found. -/
def failedScrape : ScrapeOutcome → Prop
  | .launchError _ => True
  | .ok rs => rs = []

/-- The `/api/search` response body (the fields the claims are about). -/
structure ServerResult where
  query : String
  equipName : String
  equipType : String
  description : String
  specifications : List (String × String)
  images : List String
  variants : List String
  operators : List String
  odinSuccess : Bool
  error : Option String
  news : List NewsOut
  dataSource : String
deriving DecidableEq

/-- The result-building part of the `/api/search` handler (server.js):
the success branch projects the frontend data, the degraded branch is
populated from the query string alone plus the news aggregate. -/
def handleSearch (query region : String) (odin : OdinResultS)
    (regional globalNews : List NewsArticle) : ServerResult :=
  let newsOut := aggregatedNews region regional globalNews
  match odin.success, odin.frontendData, odin.militaryReport with
  | true, some fd, some mr =>
    { query := query
      equipName := fd.overviewName
      equipType := fd.overviewType
      description := if mr.intelligenceNotes == "" then "Military equipment system"
                     else mr.intelligenceNotes
      specifications := fd.specificationsTab
      images := fd.images
      variants := fd.variants
      operators := fd.operators
      odinSuccess := true
      error := none
      news := newsOut
      dataSource := "ODIN Military Intelligence" }
  | _, _, _ =>
    { query := query
      equipName := query
      equipType := "Military Equipment"
      description := "No detailed information available from ODIN"
      specifications := []
      images := []
      variants := []
      operators := []
      odinSuccess := false
      error := some (odin.error.getD "ODIN search failed")
      news := newsOut
      dataSource := "News Only" }

/-- The cache key  `search_${query}_${region}`  of the `/api/search`
handler, built from the raw query string. -/
def cacheKey (query region : String) : String :=
  "search_" ++ query ++ "_" ++ region

/-- Lookup in the node-cache store (modelled as an association list). -/
def cacheGet (cache : List (String × ServerResult)) (k : String) :
    Option ServerResult :=
  (cache.find? (fun p => p.1 == k)).map Prod.snd

/-- HTTP response of the `/api/search` endpoint. -/
inductive Response where
  | badRequest (msg : String)
  | okCached (r : ServerResult)
  | okFresh (r : ServerResult)
deriving DecidableEq

/-- HTTP status code of a response. -/
def responseStatus : Response → Nat
  | .badRequest _ => 400
  | _ => 200

/-- Externally observable side effects of one `/api/search` request. -/
inductive Effect where
  | scrape (q : String)
  | fetchNews (q : String) (region : String)
  | cacheWrite (key : String)
deriving DecidableEq

/-- The `/api/search` endpoint (server.js): reject a missing (or empty,
hence falsy) query with 400 before touching anything; return a cached
result verbatim on a key hit; otherwise run the scraper and the two news
fetches, build the result, cache it and return it. -/
def searchEndpoint (queryParam : Option String) (region : String)
    (cache : List (String × ServerResult)) (odin : OdinResultS)
    (regional globalNews : List NewsArticle) :
    Response × List (String × ServerResult) × List Effect :=
  match queryParam with
  | none => (Response.badRequest "Query parameter is required", cache, [])
  | some query =>
    if query == "" then
      (Response.badRequest "Query parameter is required", cache, [])
    else
      let key := cacheKey query region
      match cacheGet cache key with
      | some r => (Response.okCached r, cache, [])
      | none =>
        let result := handleSearch query region odin regional globalNews
        (Response.okFresh result, jsObjSet cache key result,
         [Effect.scrape query, Effect.fetchNews query region,
          Effect.fetchNews query "US", Effect.cacheWrite key])

/-- Page state relevant to `closeAssetModal` (odinScraper.js): whether the
detail overlay is in the document, and which of the dismissal mechanisms
the page actually supports. -/
structure ModalPage where
  modalPresent : Bool
  closeButtonPresent : Bool
  closeButtonCloses : Bool
  escapeCloses : Bool
  backdropPresent : Bool
  backdropCloses : Bool
deriving DecidableEq

/-- Observable events of one `closeAssetModal` run: DOM probes for the
overlay (`page.$('.asset-detail-modal')`) and the four close attempts. -/
inductive CloseEvent where
  | probe (present : Bool)
  | clickCloseButton
  | pressEscape
  | clickBackdrop
  | forceRemove
deriving DecidableEq

/-- Tail of `closeAssetModal` from strategy 2 on: double escape press with
re-probe, backdrop click with re-probe, then forced removal of the overlay
node, which is reported as success with no further probe. -/
def closeFrom2 (s : ModalPage) (t : List CloseEvent) :
    Bool × ModalPage × List CloseEvent :=
  let s2 := if s.escapeCloses then { s with modalPresent := false } else s
  let t2 := t ++ [CloseEvent.pressEscape, CloseEvent.probe s2.modalPresent]
  if !s2.modalPresent then (true, s2, t2)
  else
    let s3 := if s.backdropPresent && s.backdropCloses then
                { s2 with modalPresent := false } else s2
    let t3 := t2 ++ [CloseEvent.clickBackdrop, CloseEvent.probe s3.modalPresent]
    if !s3.modalPresent then (true, s3, t3)
    else (true, { s3 with modalPresent := false }, t3 ++ [CloseEvent.forceRemove])

/-- Enhanced `closeAssetModal` from odinScraper.js: an initial probe (an
absent overlay means already closed), then the dedicated close button (if
present) with re-probe, then the `closeFrom2` tail. Returns the reported
success flag, the final page state, and the event trace. -/
def closeAssetModal (s : ModalPage) : Bool × ModalPage × List CloseEvent :=
  if !s.modalPresent then (true, s, [CloseEvent.probe false])
  else
    if s.closeButtonPresent then
      let s1 := if s.closeButtonCloses then { s with modalPresent := false } else s
      let t1 := [CloseEvent.probe true, CloseEvent.clickCloseButton,
                 CloseEvent.probe s1.modalPresent]
      if !s1.modalPresent then (true, s1, t1)
      else closeFrom2 s1 t1
    else closeFrom2 s [CloseEvent.probe true]

/-- Whether a close event is one of the four dismissal attempts (rather
than a probe). -/
def isAttemptEv : CloseEvent → Bool
  | .probe _ => false
  | _ => true

/-- Every dismissal attempt in the trace is immediately followed by an
overlay-presence probe. -/
def probeAfterEveryAttempt : List CloseEvent → Bool
  | [] => true
  | e :: rest =>
    if isAttemptEv e then
      match rest with
      | CloseEvent.probe _ :: _ => probeAfterEveryAttempt rest
      | _ => false
    else probeAfterEveryAttempt rest

/-- Every dismissal attempt other than the forced removal is immediately
followed by an overlay-presence probe. -/
def probeAfterEarlyAttempts : List CloseEvent → Bool
  | [] => true
  | CloseEvent.forceRemove :: rest => probeAfterEarlyAttempts rest
  | e :: rest =>
    if isAttemptEv e then
      match rest with
      | CloseEvent.probe _ :: _ => probeAfterEarlyAttempts rest
      | _ => false
    else probeAfterEarlyAttempts rest

/-- Once a probe has confirmed the overlay absent, no further dismissal
attempt occurs. -/
def noAttemptAfterConfirmedAbsent : List CloseEvent → Bool
  | [] => true
  | CloseEvent.probe false :: rest => rest.all (fun e => !isAttemptEv e)
  | _ :: rest => noAttemptAfterConfirmedAbsent rest

/-- Position of each dismissal attempt in the documented strategy order. -/
def attemptRank : CloseEvent → Nat
  | .probe _ => 0
  | .clickCloseButton => 1
  | .pressEscape => 2
  | .clickBackdrop => 3
  | .forceRemove => 4

/-- A list of naturals is strictly increasing. -/
def strictlyIncreasing : List Nat → Bool
  | [] => true
  | [_] => true
  | a :: b :: rest => decide (a < b) && strictlyIncreasing (b :: rest)

/-- The dismissal attempts of a trace occur in the documented
close-button / escape / backdrop / forced-removal order, none repeated. -/
def attemptsOrdered (t : List CloseEvent) : Bool :=
  strictlyIncreasing ((t.filter isAttemptEv).map attemptRank)

/-- How processing one card in the `searchODINWithModal` loop ends:
normally, with a null modal extraction (logged, card still kept from its
preview data), or with a thrown error (caught at card scope). -/
inductive CardOutcome where
  | ok
  | modalNull
  | throws
deriving DecidableEq

/-- One result card of the enumeration, with the way its processing ends
and the data parsing it would yield. -/
structure CardSpec where
  outcome : CardOutcome
  parsed : ParsedResult
deriving DecidableEq

/-- Observable events of the card loop: an iteration starting for card
`i`, the normal modal close at the end of card `i`, or the recovery close
performed by card `i`'s catch block. -/
inductive CardEvent where
  | attempt (i : Nat)
  | closeModal (i : Nat)
  | recoverClose (i : Nat)
deriving DecidableEq

/-- Whether a card event marks the start of a card's processing. -/
def isCardAttempt : CardEvent → Bool
  | .attempt _ => true
  | _ => false

/-- The per-card loop of `searchODINWithModal` (odinScraper.js): each card
is processed inside its own try/catch; a throwing card triggers a recovery
close and the loop moves on to the next card either way. -/
def runCards : List CardSpec → Nat → List ParsedResult × List CardEvent
  | [], _ => ([], [])
  | c :: rest, i =>
    let tail := runCards rest (i + 1)
    match c.outcome with
    | .throws =>
      (tail.1, CardEvent.attempt i :: CardEvent.recoverClose i :: tail.2)
    | _ =>
      (c.parsed :: tail.1, CardEvent.attempt i :: CardEvent.closeModal i :: tail.2)

/-- Card-processing phase of `searchODINWithModal`: at most the first 10
cards are processed (`Math.min(cards.length, 10)`), from index 0. -/
def searchODINWithModal (cards : List CardSpec) :
    List ParsedResult × List CardEvent :=
  runCards (cards.take 10) 0

/-- A concrete cached `/api/search` response used as a fixture. -/
def cachedSample : ServerResult :=
  { query := "F-35", equipName := "F-35", equipType := "Military Equipment"
    description := "No detailed information available from ODIN"
    specifications := [], images := [], variants := [], operators := []
    odinSuccess := false, error := some "ODIN search failed", news := []
    dataSource := "News Only" }

/-- A concrete failed scraper result used as a fixture. -/
def odinSample : OdinResultS := ⟨false, some "No results found", none, none⟩

/-- A concrete frontend-data record with every field empty, used as a
fixture for the report-building parameter. -/
def sampleFrontend : FrontendDataS :=
  ⟨"", "", "", "", "", [], "", [], [], [], "", [], "", "", [], [], [], "", "", []⟩

theorem map_fst_update {α : Type} (m : List (String × α)) (k : String) (v : α) :
    ((m.map (fun p => if p.1 == k then (k, v) else p)).map Prod.fst) =
      m.map Prod.fst := by
  induction m with
  | nil => rfl
  | cons p rest ih =>
    simp only [List.map_cons]
    by_cases h : (p.1 == k) = true
    · rw [if_pos h]
      have hk : p.1 = k := by simpa using h
      rw [ih, hk]
    · rw [if_neg h]
      rw [ih]

theorem mem_keys_jsObjSet {α : Type} {m : List (String × α)} {k : String}
    {v : α} {x : String} (hx : x ∈ (jsObjSet m k v).map Prod.fst) :
    x ∈ m.map Prod.fst ∨ x = k := by
  unfold jsObjSet at hx
  by_cases h : m.any (fun p => p.1 == k) = true
  · rw [if_pos h, map_fst_update] at hx
    exact Or.inl hx
  · rw [if_neg h, List.map_append] at hx
    rcases List.mem_append.1 hx with h1 | h1
    · exact Or.inl h1
    · simp at h1
      exact Or.inr h1

theorem keys_gridFold (rows : List (String × String)) :
    ∀ (acc : List (String × String)) (x : String),
      x ∈ ((rows.foldl (fun m r => jsObjSet m r.1 r.2) acc).map Prod.fst) →
      x ∈ acc.map Prod.fst ∨ x ∈ rows.map Prod.fst := by
  induction rows with
  | nil => intro acc x hx; exact Or.inl hx
  | cons r rest ih =>
    intro acc x hx
    simp only [List.foldl_cons] at hx
    rcases ih _ x hx with h | h
    · rcases mem_keys_jsObjSet h with h1 | h1
      · exact Or.inl h1
      · exact Or.inr (by simp [h1])
    · exact Or.inr (by simp only [List.map_cons]; exact List.mem_cons_of_mem _ h)

theorem keys_rowFold (table : List (List String)) :
    ∀ (acc : List (String × String)) (x : String),
      x ∈ ((table.foldl rowStep acc).map Prod.fst) →
      x ∈ acc.map Prod.fst ∨ x ∈ table.filterMap firstCellKey := by
  induction table with
  | nil => intro acc x hx; exact Or.inl hx
  | cons row rest ih =>
    intro acc x hx
    simp only [List.foldl_cons] at hx
    rcases ih _ x hx with h | h
    · rcases row with _ | ⟨c0, _ | ⟨c1, rs⟩⟩
      · exact Or.inl h
      · exact Or.inl h
      · rcases mem_keys_jsObjSet h with h1 | h1
        · exact Or.inl h1
        · refine Or.inr (List.mem_filterMap.2 ⟨c0 :: c1 :: rs, by simp, ?_⟩)
          simp [firstCellKey, h1]
    · rcases List.mem_filterMap.1 h with ⟨a, ha, hfa⟩
      exact Or.inr (List.mem_filterMap.2 ⟨a, List.mem_cons_of_mem _ ha, hfa⟩)

theorem keys_tablesFold (tables : List (List (List String))) :
    ∀ (acc : List (String × String)) (x : String),
      x ∈ ((tables.foldl (fun m table => table.foldl rowStep m) acc).map Prod.fst) →
      x ∈ acc.map Prod.fst ∨
        x ∈ tables.flatMap (fun tb => tb.filterMap firstCellKey) := by
  induction tables with
  | nil => intro acc x hx; exact Or.inl hx
  | cons tb rest ih =>
    intro acc x hx
    simp only [List.foldl_cons] at hx
    rcases ih _ x hx with h | h
    · rcases keys_rowFold tb acc x h with h1 | h1
      · exact Or.inl h1
      · exact Or.inr (List.mem_flatMap.2 ⟨tb, by simp, h1⟩)
    · rcases List.mem_flatMap.1 h with ⟨tb', htb', hx'⟩
      exact Or.inr (List.mem_flatMap.2 ⟨tb', List.mem_cons_of_mem _ htb', hx'⟩)

theorem keys_extractSpecifications (tabs : List (String × TabContent)) :
    ∀ x ∈ (extractSpecifications tabs).map Prod.fst,
      ∃ t ∈ tabs, x ∈ t.2.gridRows.map Prod.fst ∨
        x ∈ t.2.tables.flatMap (fun tb => tb.filterMap firstCellKey) := by
  have main : ∀ (ts : List (String × TabContent)) (acc : List (String × String))
      (x : String),
      x ∈ ((ts.foldl (fun specs t =>
          t.2.tables.foldl (fun m table => table.foldl rowStep m)
            (t.2.gridRows.foldl (fun m r => jsObjSet m r.1 r.2) specs)) acc).map
            Prod.fst) →
      x ∈ acc.map Prod.fst ∨
        ∃ t ∈ ts, x ∈ t.2.gridRows.map Prod.fst ∨
          x ∈ t.2.tables.flatMap (fun tb => tb.filterMap firstCellKey) := by
    intro ts
    induction ts with
    | nil => intro acc x hx; exact Or.inl hx
    | cons t rest ih =>
      intro acc x hx
      simp only [List.foldl_cons] at hx
      rcases ih _ x hx with h | h
      · rcases keys_tablesFold _ _ _ h with h1 | h1
        · rcases keys_gridFold _ _ _ h1 with h2 | h2
          · exact Or.inl h2
          · exact Or.inr ⟨t, by simp, Or.inl h2⟩
        · exact Or.inr ⟨t, by simp, Or.inr h1⟩
      · rcases h with ⟨t', ht', hx'⟩
        exact Or.inr ⟨t', List.mem_cons_of_mem _ ht', hx'⟩
  intro x hx
  rcases main tabs [] x (by simpa [extractSpecifications] using hx) with h | h
  · simp at h
  · exact h

/-- Claim C5: for the two-tab fixture — Tab A with key/value rows
(Range, 500 km) and (Speed, Mach 3), Tab B with the 2-column table row
(Warhead, 300 kg) — the specifications fold of `extractSpecifications`
produces exactly the map Range ↦ 500 km, Speed ↦ Mach 3,
Warhead ↦ 300 kg. -/
theorem two_tab_fixture_specifications :
    extractSpecifications
      [("Tab A", ⟨"", "", [], [("Range", "500 km"), ("Speed", "Mach 3")]⟩),
       ("Tab B", ⟨"", "", [[["Warhead", "300 kg"]]], []⟩)] =
      [("Range", "500 km"), ("Speed", "Mach 3"), ("Warhead", "300 kg")] := by
  decide

/-- Claim C6 (counterexample): `extractSpecifications` performs neither
trimming nor empty-key dropping — a tab whose table holds an untrimmed row
and a row with an empty first cell yields a map with untrimmed entries and
an empty-string key. -/
theorem specifications_untrimmed_counterexample :
    extractSpecifications
      [("Specifications", ⟨"", "", [[[" Range ", " 500 km "], ["", "300 kg"]]], []⟩)] =
      [(" Range ", " 500 km "), ("", "300 kg")] ∧
    "" ∈ (extractSpecifications
      [("Specifications", ⟨"", "", [[[" Range ", " 500 km "], ["", "300 kg"]]], []⟩)]).map
        Prod.fst := by
  constructor
  · decide
  · decide

/-- Claim C6 (amended): every key of the map built by
`extractSpecifications` comes verbatim from a grid-row label or from the
first cell of a table row with at least two cells; hence when all those
sources are non-empty, the map has no empty-string key. The function itself
neither trims nor drops empty keys — the non-emptiness guard and the
trimming happen earlier, at DOM extraction time. -/
theorem specifications_keys_nonempty (tabs : List (String × TabContent))
    (hg : ∀ t ∈ tabs, ∀ r ∈ t.2.gridRows, r.1 ≠ "")
    (ht : ∀ t ∈ tabs, ∀ tb ∈ t.2.tables, ∀ row ∈ tb, firstCellKey row ≠ some "") :
    ∀ k ∈ (extractSpecifications tabs).map Prod.fst, k ≠ "" := by
  intro k hk
  rcases keys_extractSpecifications tabs k hk with ⟨t, htab, hsrc | hsrc⟩
  · rcases List.mem_map.1 hsrc with ⟨r, hr, hrk⟩
    exact hrk ▸ hg t htab r hr
  · rcases List.mem_flatMap.1 hsrc with ⟨tb, htb, hcell⟩
    rcases List.mem_filterMap.1 hcell with ⟨row, hrow, hfk⟩
    intro hke
    subst hke
    exact ht t htab tb htb row hrow hfk

/-- Claim C6 (witness for the amended theorem): the amended no-empty-key
property evaluated on a concrete two-tab input whose labels and first
cells are all non-empty, at the concrete key Range. -/
theorem specifications_keys_nonempty_witness :
    "Range" ∈ (extractSpecifications
      [("Tab A", ⟨"", "", [], [("Range", "500 km")]⟩),
       ("Tab B", ⟨"", "", [[["Warhead", "300 kg"]]], []⟩)]).map Prod.fst ∧
    ("Range" : String) ≠ "" :=
  ⟨by decide,
   specifications_keys_nonempty
     [("Tab A", ⟨"", "", [], [("Range", "500 km")]⟩),
      ("Tab B", ⟨"", "", [[["Warhead", "300 kg"]]], []⟩)]
     (by decide) (by decide) "Range" (by decide)⟩

theorem nodup_setAdd {l : List String} {x : String} (h : l.Nodup) :
    (setAdd l x).Nodup := by
  unfold setAdd
  split
  · exact h
  · next hx =>
    refine List.Nodup.append h (List.nodup_singleton x) ?_
    intro a ha hb
    rw [List.mem_singleton] at hb
    exact hx (hb ▸ ha)

theorem nodup_setFold (xs : List String) :
    ∀ acc : List String, acc.Nodup → (xs.foldl setAdd acc).Nodup := by
  induction xs with
  | nil => intro acc h; exact h
  | cons x rest ih =>
    intro acc h
    simp only [List.foldl_cons]
    exact ih _ (nodup_setAdd h)

theorem nodup_projFold (f : ParsedResult → List String)
    (results : List ParsedResult) :
    ∀ acc : List String, acc.Nodup →
      (results.foldl (fun acc r => (f r).foldl setAdd acc) acc).Nodup := by
  induction results with
  | nil => intro acc h; exact h
  | cons r rest ih =>
    intro acc h
    simp only [List.foldl_cons]
    exact ih _ (nodup_setFold _ _ h)

/-- Claim C7 (counterexample): two processed cards sharing one preview
image URL — an icon/logo-patterned one at that — produce a merged images
list with that URL twice: the merge neither deduplicates image URLs nor
filters icon/logo patterns. -/
theorem merged_images_not_dedup_counterexample :
    (mergeEquipment
      [⟨"BrahMos", "Missile", "", "", "https://site/assets/logo-icon.png", [], [], []⟩,
       ⟨"BrahMos Block I", "Missile", "", "", "https://site/assets/logo-icon.png", [], [], []⟩]).images =
      ["https://site/assets/logo-icon.png", "https://site/assets/logo-icon.png"] ∧
    ¬ (mergeEquipment
      [⟨"BrahMos", "Missile", "", "", "https://site/assets/logo-icon.png", [], [], []⟩,
       ⟨"BrahMos Block I", "Missile", "", "", "https://site/assets/logo-icon.png", [], [], []⟩]).images.Nodup := by
  constructor
  · decide
  · decide

/-- Claim C7 (amended): after the merge step of `searchODIN`, the
operators and variants lists are duplicate-free (they are built through a
JS `Set`); the images list is only the per-card image URLs with empty
entries removed — each of its elements is a non-empty URL of some
processed card, but the list is not deduplicated and no icon/logo
filtering is applied anywhere. -/
theorem merged_lists_deduplicated (results : List ParsedResult) :
    (mergeEquipment results).operators.Nodup ∧
    (mergeEquipment results).variants.Nodup ∧
    ∀ u ∈ (mergeEquipment results).images,
      u ≠ "" ∧ ∃ r ∈ results, r.imageUrl = u := by
  refine ⟨?_, ?_, ?_⟩
  · exact nodup_projFold (fun r => r.operators) results [] List.nodup_nil
  · exact nodup_projFold (fun r => r.variants) results [] List.nodup_nil
  · intro u hu
    have hu' : u ∈ (results.map (fun r => r.imageUrl)).filter (fun s => !(s == "")) := hu
    rw [List.mem_filter] at hu'
    refine ⟨by simpa using hu'.2, ?_⟩
    rcases List.mem_map.1 hu'.1 with ⟨r, hr, hru⟩
    exact ⟨r, hr, hru⟩

/-- Claim C7 (witness for the amended theorem): the image-provenance part
evaluated on a concrete one-card input at its concrete image URL. -/
theorem merged_lists_deduplicated_witness :
    "https://a/x.jpg" ∈ (mergeEquipment
      [⟨"BrahMos", "Missile", "", "", "https://a/x.jpg", [], ["India"], ["Block I"]⟩]).images ∧
    ("https://a/x.jpg" : String) ≠ "" :=
  ⟨by decide,
   ((merged_lists_deduplicated
     [⟨"BrahMos", "Missile", "", "", "https://a/x.jpg", [], ["India"], ["Block I"]⟩]).2.2
     "https://a/x.jpg" (by decide)).1⟩

/-- Claim C2 (counterexample): on a page where the close button is present
but ineffective, escape does not dismiss, and the backdrop click does not
dismiss, `closeAssetModal` falls through to the forced removal and reports
success with no re-probe after that fourth attempt — refuting that overlay
presence is re-probed after each attempt. -/
theorem modal_close_no_reprobe_counterexample :
    (closeAssetModal ⟨true, true, false, false, true, false⟩).1 = true ∧
    probeAfterEveryAttempt
      (closeAssetModal ⟨true, true, false, false, true, false⟩).2.2 = false := by
  constructor
  · decide
  · decide

/-- Claim C2 (amended): the four close strategies are attempted in the
documented order; overlay presence is re-probed after each of the first
three attempts and a probe confirming absence ends the sequence; the
fourth attempt (forced node removal) removes the overlay and is reported
as success without a verification re-probe. In particular, when the
dedicated close button is absent but escape dismissal works, the run is
exactly probe / escape / probe-absent and ends in verified success, not
stuck. -/
theorem modal_close_sequence (s : ModalPage) (h : s.modalPresent = true) :
    (closeAssetModal s).1 = true ∧
    ((closeAssetModal s).2.1).modalPresent = false ∧
    attemptsOrdered (closeAssetModal s).2.2 = true ∧
    probeAfterEarlyAttempts (closeAssetModal s).2.2 = true ∧
    noAttemptAfterConfirmedAbsent (closeAssetModal s).2.2 = true ∧
    (s.closeButtonPresent = false → s.escapeCloses = true →
      (closeAssetModal s).2.2 =
        [CloseEvent.probe true, CloseEvent.pressEscape, CloseEvent.probe false]) := by
  obtain ⟨m, cb, cc, esc, bp, bc⟩ := s
  cases m
  · simp at h
  · cases cb <;> cases cc <;> cases esc <;> cases bp <;> cases bc <;> decide

/-- Claim C2 (witness for the amended theorem): the escape-succeeds
scenario evaluated on a concrete page state with no close button. -/
theorem modal_close_sequence_witness :
    (closeAssetModal ⟨true, false, false, true, false, false⟩).2.2 =
      [CloseEvent.probe true, CloseEvent.pressEscape, CloseEvent.probe false] :=
  (modal_close_sequence ⟨true, false, false, true, false, false⟩ rfl).2.2.2.2.2 rfl rfl

theorem runCards_attempts (cs : List CardSpec) :
    ∀ i : Nat, ((runCards cs i).2.filter isCardAttempt) =
      (List.range' i cs.length).map CardEvent.attempt := by
  induction cs with
  | nil => intro i; rfl
  | cons c rest ih =>
    intro i
    cases hc : c.outcome <;>
      simp [runCards, hc, isCardAttempt, ih (i + 1), List.range']

theorem runCards_recover (cs : List CardSpec) :
    ∀ (i k : Nat) (c : CardSpec), cs.get? k = some c →
      c.outcome = CardOutcome.throws →
      CardEvent.recoverClose (i + k) ∈ (runCards cs i).2 := by
  induction cs with
  | nil => intro i k c hk _; simp at hk
  | cons c0 rest ih =>
    intro i k c hk hthrow
    cases k with
    | zero =>
      simp at hk
      subst hk
      simp [runCards, hthrow]
    | succ k' =>
      simp only [List.get?_cons_succ] at hk
      have hmem := ih (i + 1) k' c hk hthrow
      have harith : i + 1 + k' = i + (k' + 1) := by omega
      rw [harith] at hmem
      cases hc : c0.outcome <;> simp [runCards, hc] <;> exact hmem

/-- Claim C3: in the card loop of `searchODINWithModal`, every index below
`min(cards.length, 10)` is attempted, whatever the failure pattern — the
attempted-card trace is exactly the full index range; and any card that
throws gets a recovery close at its own scope while the following card is
still attempted. -/
theorem cards_continue_after_failure (cards : List CardSpec) :
    ((searchODINWithModal cards).2.filter isCardAttempt) =
      (List.range (min cards.length 10)).map CardEvent.attempt ∧
    (∀ k c, k < 10 → cards.get? k = some c →
      c.outcome = CardOutcome.throws →
      CardEvent.recoverClose k ∈ (searchODINWithModal cards).2 ∧
      (k + 1 < min cards.length 10 →
        CardEvent.attempt (k + 1) ∈ (searchODINWithModal cards).2)) := by
  have hlen : (cards.take 10).length = min cards.length 10 := by
    simp [List.length_take, Nat.min_comm]
  constructor
  · rw [searchODINWithModal, runCards_attempts, hlen, List.range_eq_range']
  · intro k c hk10 hkc hthrow
    have htake : (cards.take 10).get? k = some c := by
      rwa [List.get?_take hk10]
    constructor
    · have := runCards_recover (cards.take 10) 0 k c htake hthrow
      simpa [searchODINWithModal] using this
    · intro hlt
      have hmem : CardEvent.attempt (k + 1) ∈
          ((searchODINWithModal cards).2.filter isCardAttempt) := by
        rw [searchODINWithModal, runCards_attempts, hlen]
        refine List.mem_map.2 ⟨k + 1, ?_, rfl⟩
        rw [List.mem_range'_1]
        omega
      exact List.mem_of_mem_filter hmem

/-- Claim C3 (witness): a concrete two-card run where card 0 throws —
card 0 gets a recovery close and card 1 is still attempted. -/
theorem cards_continue_after_failure_witness :
    CardEvent.recoverClose 0 ∈
      (searchODINWithModal
        [⟨CardOutcome.throws, emptyParsed⟩, ⟨CardOutcome.ok, emptyParsed⟩]).2 ∧
    CardEvent.attempt 1 ∈
      (searchODINWithModal
        [⟨CardOutcome.throws, emptyParsed⟩, ⟨CardOutcome.ok, emptyParsed⟩]).2 := by
  have h := (cards_continue_after_failure
    [⟨CardOutcome.throws, emptyParsed⟩, ⟨CardOutcome.ok, emptyParsed⟩]).2 0
    ⟨CardOutcome.throws, emptyParsed⟩ (by decide) rfl rfl
  exact ⟨h.1, h.2 (by decide)⟩

theorem mem_jsObjSet {α : Type} {m : List (String × α)} {k : String} {v : α}
    {p : String × α} (hp : p ∈ jsObjSet m k v) : p ∈ m ∨ p = (k, v) := by
  unfold jsObjSet at hp
  split at hp
  · rcases List.mem_map.1 hp with ⟨q, hq, rfl⟩
    by_cases hqk : (q.1 == k) = true
    · right; simp [hqk]
    · left; simpa [hqk] using hq
  · rcases List.mem_append.1 hp with h | h
    · left; exact h
    · right; simpa using h

theorem nodupKeys_jsObjSet {α : Type} {m : List (String × α)} {k : String}
    {v : α} (h : (m.map Prod.fst).Nodup) :
    ((jsObjSet m k v).map Prod.fst).Nodup := by
  unfold jsObjSet
  split
  · rw [map_fst_update]; exact h
  · next hany =>
    rw [List.map_append]
    refine List.Nodup.append h (by simp) ?_
    intro x hx hx2
    simp only [List.map_cons, List.map_nil, List.mem_singleton] at hx2
    subst hx2
    rcases List.mem_map.1 hx with ⟨q, hq, hqk⟩
    exact hany (List.any_eq_true.2 ⟨q, hq, by simp [hqk]⟩)

theorem newsFold_invariant (l : List NewsArticle) :
    ∀ m : List (String × NewsArticle), (∀ p ∈ m, newsKey p.2 = p.1) →
      ∀ p ∈ l.foldl (fun m a => jsObjSet m (newsKey a) a) m, newsKey p.2 = p.1 := by
  induction l with
  | nil => intro m hm; exact hm
  | cons a rest ih =>
    intro m hm
    simp only [List.foldl_cons]
    refine ih _ ?_
    intro p hp
    rcases mem_jsObjSet hp with h | h
    · exact hm p h
    · subst h; rfl

theorem nodupKeys_newsFold (l : List NewsArticle) :
    ∀ m : List (String × NewsArticle), ((m.map Prod.fst).Nodup) →
      (((l.foldl (fun m a => jsObjSet m (newsKey a) a) m).map Prod.fst)).Nodup := by
  induction l with
  | nil => intro m hm; exact hm
  | cons a rest ih =>
    intro m hm
    simp only [List.foldl_cons]
    exact ih _ (nodupKeys_jsObjSet hm)

theorem dedupeNews_pairwise_key (l : List NewsArticle) :
    (dedupeNews l).Pairwise (fun a b => newsKey a ≠ newsKey b) := by
  have hinv := newsFold_invariant l [] (by simp)
  have hnd := nodupKeys_newsFold l [] (by simp)
  set F := l.foldl (fun m a => jsObjSet m (newsKey a) a) [] with hF
  have hmapeq : F.map Prod.fst = (F.map Prod.snd).map newsKey := by
    rw [List.map_map]
    exact List.map_congr_left fun p hp => (hinv p hp).symm
  rw [hmapeq] at hnd
  have : ((F.map Prod.snd).map newsKey).Pairwise (fun a b => a ≠ b) := hnd
  rw [List.pairwise_map] at this
  exact this

theorem perm_insertDesc (a : NewsArticle) (l : List NewsArticle) :
    (insertDesc a l).Perm (a :: l) := by
  induction l with
  | nil => exact List.Perm.refl _
  | cons b bs ih =>
    unfold insertDesc
    split
    · exact List.Perm.refl _
    · exact (ih.cons b).trans (List.Perm.swap a b bs)

theorem perm_sortDesc (l : List NewsArticle) : (sortDesc l).Perm l := by
  induction l with
  | nil => exact List.Perm.refl _
  | cons a as ih =>
    exact (perm_insertDesc a (sortDesc as)).trans (ih.cons a)

/-- Claim C4: deduplication identity in the news aggregation of
`/api/search` is `link || title`; in the final article list (deduplicated,
time-sorted, capped) any two articles have distinct keys — so every link
value occurs at most once — and of two articles with identical titles and
no link, exactly one (the later) survives deduplication. -/
theorem news_dedup_by_link_or_title (l : List NewsArticle) :
    ((sortDesc (dedupeNews l)).take 20).Pairwise
      (fun a b => newsKey a ≠ newsKey b) ∧
    ((sortDesc (dedupeNews l)).take 20).Pairwise
      (fun a b => a.link = "" ∨ a.link ≠ b.link) ∧
    (∀ a b : NewsArticle, a.link = "" → b.link = "" → a.title = b.title →
      dedupeNews [a, b] = [b]) := by
  have h2 : (sortDesc (dedupeNews l)).Pairwise
      (fun a b => newsKey a ≠ newsKey b) :=
    ((perm_sortDesc (dedupeNews l)).pairwise_iff
      (fun h h2 => h h2.symm)).2 (dedupeNews_pairwise_key l)
  have h3 := List.Pairwise.sublist (List.take_sublist 20 _) h2
  refine ⟨h3, ?_, ?_⟩
  · refine h3.imp ?_
    intro a b hk
    by_cases ha : a.link = ""
    · exact Or.inl ha
    · right
      intro heq
      have hb : ¬ b.link = "" := fun hb0 => ha (heq.trans hb0)
      apply hk
      simp only [newsKey, beq_iff_eq, if_neg ha, if_neg hb]
      exact heq
  · intro a b ha hb htitle
    simp [dedupeNews, jsObjSet, newsKey, ha, hb, htitle]

/-- Claim C4 (witness): two concrete articles with the same title and no
link — deduplication keeps exactly one, the later. -/
theorem news_dedup_by_link_or_title_witness :
    dedupeNews
      [⟨"Missile test", "", "Reuters", "", "2024-01-01", "", "", 5, "", ""⟩,
       ⟨"Missile test", "", "AP", "", "2024-01-02", "", "", 9, "", ""⟩] =
      [⟨"Missile test", "", "AP", "", "2024-01-02", "", "", 9, "", ""⟩] :=
  (news_dedup_by_link_or_title []).2.2
    ⟨"Missile test", "", "Reuters", "", "2024-01-01", "", "", 5, "", ""⟩
    ⟨"Missile test", "", "AP", "", "2024-01-02", "", "", 9, "", ""⟩ rfl rfl rfl

/-- Claim C9: `extractOperators` always returns a non-empty list; every
element is one of the 29 reference nation names or the sentinel
`'Unknown'`; and the sentinel appears exactly when no reference nation
name occurs as a (case-insensitive) whole word in the extraction text. -/
theorem operators_reference_list (allText : String) :
    countries.length = 29 ∧
    extractOperators allText ≠ [] ∧
    (∀ op ∈ extractOperators allText, op ∈ countries ∨ op = "Unknown") ∧
    (("Unknown" : String) ∈ extractOperators allText ↔
      ∀ c ∈ countries, occursAsWord allText c = false) := by
  have hUnk : ("Unknown" : String) ∉ countries := by decide
  have key : (countries.filter (fun c => occursAsWord allText c) = []) ↔
      (∀ c ∈ countries, occursAsWord allText c = false) := by
    rw [List.filter_eq_nil_iff]
    constructor
    · intro h c hc
      simpa using h c hc
    · intro h c hc
      simp [h c hc]
  refine ⟨rfl, ?_, ?_, ?_⟩
  · simp only [extractOperators]
    by_cases h : (countries.filter (fun c => occursAsWord allText c)).isEmpty
    · rw [if_pos h]
      simp
    · rw [if_neg h]
      intro hnil
      exact h (by simp [hnil])
  · intro op hop
    simp only [extractOperators] at hop
    by_cases h : (countries.filter (fun c => occursAsWord allText c)).isEmpty
    · rw [if_pos h] at hop
      simp at hop
      exact Or.inr hop
    · rw [if_neg h] at hop
      exact Or.inl (List.mem_filter.1 hop).1
  · simp only [extractOperators]
    by_cases h : (countries.filter (fun c => occursAsWord allText c)).isEmpty
    · have hnil : countries.filter (fun c => occursAsWord allText c) = [] := by
        simpa using h
      rw [if_pos h]
      simp only [List.mem_singleton]
      constructor
      · intro _
        exact key.1 hnil
      · intro _
        trivial
    · rw [if_neg h]
      constructor
      · intro hU
        exact absurd ((List.mem_filter.1 hU).1) hUnk
      · intro hall
        exact absurd (by simp [key.2 hall] :
          (countries.filter (fun c => occursAsWord allText c)).isEmpty = true) h

/-- Claim C9 (witness): on a concrete text containing the word India, the
membership part of the invariant applied to the extracted operator. -/
theorem operators_reference_list_witness :
    ("India" ∈ countries ∨ "India" = "Unknown") ∧
    extractOperators "India" ≠ [] :=
  ⟨(operators_reference_list "India").2.2.1 "India" (by decide),
   (operators_reference_list "India").2.1⟩

/-- Claim C10: an `/api/search` request without a query parameter is
rejected with status 400 and an error message before anything else
happens: no scraper call, no news fetch, no cache read or write — the
cache is returned unchanged and the effect list is empty. -/
theorem missing_query_rejected (region : String)
    (cache : List (String × ServerResult)) (odin : OdinResultS)
    (regional globalNews : List NewsArticle) :
    searchEndpoint none region cache odin regional globalNews =
      (Response.badRequest "Query parameter is required", cache, []) ∧
    responseStatus (searchEndpoint none region cache odin regional globalNews).1 = 400 :=
  ⟨rfl, rfl⟩

/-- Claim C1: whenever the detail-extraction path fails entirely (session
launch error or scraper exception, both surfacing as `launchError`, or
zero cards), `searchODIN` still returns a value (never a thrown exception)
carrying an error description, and the `/api/search` result is the
degraded record: equipment name is the query string itself, empty
specifications, `odinSuccess: false` with the error description, and the
full news aggregate — exactly the list the success branch would embed. -/
theorem degraded_result_shape
    (build : List ParsedResult → MilitaryReportS × FrontendDataS)
    (query region : String) (outcome : ScrapeOutcome)
    (regional globalNews : List NewsArticle) (h : failedScrape outcome) :
    (searchODIN build outcome).error.isSome = true ∧
    handleSearch query region (searchODIN build outcome) regional globalNews =
      { query := query, equipName := query, equipType := "Military Equipment",
        description := "No detailed information available from ODIN",
        specifications := [], images := [], variants := [], operators := [],
        odinSuccess := false, error := (searchODIN build outcome).error,
        news := aggregatedNews region regional globalNews,
        dataSource := "News Only" } := by
  cases outcome with
  | launchError msg => exact ⟨rfl, rfl⟩
  | ok rs =>
    have hnil : rs = [] := h
    subst hnil
    exact ⟨rfl, rfl⟩

/-- Claim C1 (witness): the degraded shape evaluated at a concrete
zero-cards outcome. -/
theorem degraded_result_shape_witness :
    (searchODIN (fun _ => (⟨"", "Active", "Low"⟩, sampleFrontend))
      (ScrapeOutcome.ok [])).error.isSome = true :=
  (degraded_result_shape (fun _ => (⟨"", "Active", "Low"⟩, sampleFrontend))
    "BrahMos" "IN" (ScrapeOutcome.ok []) [] [] rfl).1

/-- Claim C8 (counterexample): with the result for query F-35 (region IN)
sitting in the cache, a request for f-35 — differing only in letter case —
misses the cache and re-runs the whole pipeline: the scraper effect fires
and the response is not the cached record. -/
theorem cache_case_sensitivity_counterexample :
    Effect.scrape "f-35" ∈
      (searchEndpoint (some "f-35") "IN" [(cacheKey "F-35" "IN", cachedSample)]
        odinSample [] []).2.2 ∧
    (searchEndpoint (some "f-35") "IN" [(cacheKey "F-35" "IN", cachedSample)]
        odinSample [] []).1 ≠ Response.okCached cachedSample := by
  constructor
  · decide
  · decide

/-- Claim C8 (amended): the cache key is the literal string
`search_<query>_<region>` built from the raw query: for a fixed region two
queries share a key exactly when they are byte-identical (so queries
differing in case or whitespace are distinct entries), and a request whose
exact key is cached returns the cached record with no scraper or news
effects. -/
theorem cache_key_exact (q q2 region : String)
    (cache : List (String × ServerResult)) (odin : OdinResultS)
    (regional globalNews : List NewsArticle) (r : ServerResult) :
    (cacheKey q region = cacheKey q2 region ↔ q = q2) ∧
    (q ≠ "" → cacheGet cache (cacheKey q region) = some r →
      searchEndpoint (some q) region cache odin regional globalNews =
        (Response.okCached r, cache, [])) := by
  constructor
  · constructor
    · intro h
      have h2 : ("search_" ++ q ++ "_" ++ region).data =
          ("search_" ++ q2 ++ "_" ++ region).data :=
        congrArg String.data (by simpa [cacheKey] using h)
      simp only [String.data_append] at h2
      have h3 := List.append_cancel_right h2
      have h4 := List.append_cancel_right h3
      have h5 := List.append_cancel_left h4
      cases q with
      | mk l =>
        cases q2 with
        | mk l2 =>
          simp only at h5
          rw [h5]
    · intro h
      rw [h]
  · intro hq hget
    have hq' : ¬((q == "") = true) := by simpa using hq
    simp only [searchEndpoint, if_neg hq', hget]

/-- Claim C8 (witness for the amended theorem): a byte-identical repeat
request returns the cached record untouched. -/
theorem cache_key_exact_witness :
    searchEndpoint (some "F-35") "IN" [(cacheKey "F-35" "IN", cachedSample)]
      odinSample [] [] =
      (Response.okCached cachedSample, [(cacheKey "F-35" "IN", cachedSample)], []) :=
  (cache_key_exact "F-35" "F-35" "IN" [(cacheKey "F-35" "IN", cachedSample)]
    odinSample [] [] cachedSample).2 (by decide) (by decide)
